import Mathlib

/-!
# Verification of the go-mmap memory-mapping library

A shallow embedding of the opencoff/go-mmap package: the canonical
protection/flag bits, the `Map` request validation of `mmap.go`, the
platform flag translators (`convert`) and `flush` implementations of
`mmap_unix.go` and `mmap_windows.go`, and the chunked `Reader` of
`mmap.go`.  Machine integers (Go `int64`) are modelled as `Int` with
explicit two's-complement wrapping where the Go code can overflow; the
OS mapping primitives are abstracted as events/invocations recorded in
the result, with their success/failure outcomes passed in as parameters
where a claim needs them.
-/

/-! ## Canonical constants (mmap.go)

`Prot` and `Flag` are bitfields (`1 << iota`); we model their values as
`Nat` bit masks. -/

namespace mmap

def PROT_READ : Nat := 1
def PROT_WRITE : Nat := 2
def PROT_EXEC : Nat := 4

def F_COW : Nat := 1
def F_HUGETLB : Nat := 2
def F_READAHEAD : Nat := 4

end mmap

/-- Maximum single-mapping size, 64-bit tier (const_64.go):
`1024 * 1024 * 1048576`. -/
def _MaxMmapSize : Int := 1024 * 1024 * 1048576

/-! ## Go int64 arithmetic

Go's `sz + off` on `int64` wraps around in two's complement; `Int` does
not, so the wrap is explicit. -/

/-- Normalize an integer into the `int64` range `[-2^63, 2^63)` by
two's-complement wrapping. -/
def int64Wrap (x : Int) : Int := (x + 2 ^ 63) % 2 ^ 64 - 2 ^ 63

/-- Go `int64` addition: exact addition followed by the wrap. -/
def int64Add (a b : Int) : Int := int64Wrap (a + b)

/-! ## The Mapper (mmap.go, `Mmap.Map`)

An `Mmap` value is either anonymous (`fd == nil`) or bound to a file;
for a file-backed mapper the outcome of `fd.Stat()` is part of the
state we quantify over (`none` models a failing `Stat`).  `MapT`
returns both the list of OS mapping primitives invoked and the result,
so that "no OS mapping is created on a validation failure" is visible
in the model. -/

/-- Result of `os.File.Stat()` as `Map` consumes it: the mode's
regular-file bit and `Size()`. -/
structure FileInfo where
  isRegular : Bool
  size : Int
deriving DecidableEq

/-- The backing of an `Mmap`: anonymous (`NewAnon`) or a file (`New`),
the latter together with its stat outcome. -/
inductive Backing where
  | anon : Backing
  | file : Option FileInfo → Backing
deriving DecidableEq

/-- An invocation of an OS mapping primitive (`Mmap.mmap` /
`Mmap.map_anon`), with the arguments the Go code passes. -/
inductive OSInvoke where
  | mmapCall : Int → Int → Nat → Nat → OSInvoke
  | mapAnonCall : Int → Int → Nat → Nat → OSInvoke
deriving DecidableEq

/-- What `Mmap.Map` returns: one of its validation errors, or the
dispatch to an OS primitive with the (possibly resolved) arguments. -/
inductive MapResult where
  | statError : MapResult
  | notRegular : MapResult
  | emptyFile : MapResult
  | outOfBounds : MapResult
  | tooLarge : MapResult
  | osMmap : Int → Int → Nat → Nat → MapResult
  | osMapAnon : Int → Int → Nat → Nat → MapResult
deriving DecidableEq

/-- `Mmap.Map` (mmap.go lines 64-98), translated clause by clause, and
additionally recording the OS mapping primitives invoked.  The Go
comparisons `sz > fsz` and `sz > _MaxMmapSize` act on in-range int64
values and are exact; the sum `sz + off` is int64 addition and wraps. -/
def MapT (m : Backing) (sz off : Int) (prot flags : Nat) :
    List OSInvoke × MapResult :=
  match m with
  | .anon => ([.mapAnonCall sz off prot flags], .osMapAnon sz off prot flags)
  | .file none => ([], .statError)
  | .file (some st) =>
    if st.isRegular = false then ([], .notRegular)
    else
      let fsz := st.size
      if fsz = 0 then ([], .emptyFile)
      else
        let sz := if sz ≤ 0 then fsz else sz
        if sz > fsz ∨ int64Add sz off > fsz then ([], .outOfBounds)
        else if sz > _MaxMmapSize then ([], .tooLarge)
        else ([.mmapCall sz off prot flags], .osMmap sz off prot flags)

/-- The result component of `Mmap.Map`. -/
def Map (m : Backing) (sz off : Int) (prot flags : Nat) : MapResult :=
  (MapT m sz off prot flags).2

/-- Whether a `Map` outcome is one of the validation/stat errors (no
`Mapping` is returned). -/
def isErr : MapResult → Bool
  | .statError => true
  | .notRegular => true
  | .emptyFile => true
  | .outOfBounds => true
  | .tooLarge => true
  | .osMmap _ _ _ _ => false
  | .osMapAnon _ _ _ _ => false

/-! ## Platform flag translation

`convert` exists once per platform family; both are embedded, against
the numeric values of the `golang.org/x/sys` constants for the primary
target of each family (linux for the unix build, as fixed by
map_linux.go). -/

namespace unix

def PROT_READ : Nat := 0x1
def PROT_WRITE : Nat := 0x2
def PROT_EXEC : Nat := 0x4
def MAP_SHARED : Nat := 0x01
def MAP_PRIVATE : Nat := 0x02
def MAP_FILE : Nat := 0x0
def MAP_ANON : Nat := 0x20

end unix

/-- linux values of the optional flags (map_linux.go). -/
def _MAP_HUGETLB : Nat := 0x40000

/-- linux value of `unix.MAP_POPULATE` (map_linux.go). -/
def _MAP_POPULATE : Nat := 0x8000

/-- `convert` of mmap_unix.go (lines 58-81): canonical prot/flags to
the `(mprot, mflag)` pair handed to `unix.Mmap`.  A total function, as
in the source, with no error path. -/
def unixConvert (prot flags : Nat) : Nat × Nat :=
  let mprot := unix.PROT_READ
  let mflag := unix.MAP_SHARED ||| unix.MAP_FILE
  let pw := if prot &&& mmap.PROT_WRITE ≠ 0 then
    (mprot ||| unix.PROT_WRITE,
     if flags &&& mmap.F_COW ≠ 0 then unix.MAP_PRIVATE else mflag)
  else (mprot, mflag)
  let mprot := pw.1
  let mflag := pw.2
  let mprot := if prot &&& mmap.PROT_EXEC ≠ 0 then mprot ||| unix.PROT_EXEC
    else mprot
  let mflag := if flags &&& mmap.F_HUGETLB ≠ 0 then mflag ||| _MAP_HUGETLB
    else mflag
  let mflag := if flags &&& mmap.F_READAHEAD ≠ 0 then mflag ||| _MAP_POPULATE
    else mflag
  (mprot, mflag)

namespace windows

def PAGE_READONLY : Nat := 0x02
def PAGE_READWRITE : Nat := 0x04
def PAGE_WRITECOPY : Nat := 0x08
def FILE_MAP_COPY : Nat := 0x01
def FILE_MAP_WRITE : Nat := 0x02
def FILE_MAP_READ : Nat := 0x04
def FILE_MAP_EXECUTE : Nat := 0x20

end windows

/-- `convert` of mmap_windows.go (lines 166-201): canonical prot/flags
to the `(mflag, macc)` pair for `CreateFileMapping`/`MapViewOfFile`.
The EXEC variants of `mflag` are the non-exec values shifted left by
four bits, exactly as the source computes them. -/
def winConvert (prot flags : Nat) : Nat × Nat :=
  let mflag := windows.PAGE_READONLY
  let macc := windows.FILE_MAP_READ
  let fm := if prot &&& mmap.PROT_WRITE ≠ 0 then
    (if flags &&& mmap.F_COW ≠ 0 then
      (windows.PAGE_WRITECOPY, macc ||| windows.FILE_MAP_COPY)
     else
      (windows.PAGE_READWRITE, macc ||| windows.FILE_MAP_WRITE))
  else (mflag, macc ||| windows.FILE_MAP_READ)
  let mflag := fm.1
  let macc := fm.2
  let fm := if prot &&& mmap.PROT_EXEC ≠ 0 then
    (mflag <<< 4, macc ||| windows.FILE_MAP_EXECUTE)
  else (mflag, macc)
  (fm.1, fm.2)

/-! ## Flush (mmap_unix.go lines 105-111, mmap_windows.go lines 122-138)

Each model returns the list of OS calls issued, in order, so the
one-step/two-step structure of each platform's flush is visible.  The
file handle is `none` for an anonymous mapping (`Mmap.fd == nil`). -/

/-- An OS call issued by the unix `flush`.  `unix.Msync(b, flags)`
takes the msync flags as its second argument; the constructor records
the value the code passes in that position. -/
inductive UnixCall where
  | msync : Int → UnixCall
deriving DecidableEq

/-- `Mapping.flush` of mmap_unix.go: computes `fd := -1`, replaces it
with the file descriptor when the mapper is file-backed, and calls
`unix.Msync(p.buf, fd)` — the fd value lands in the flags argument of
msync. -/
def unixFlush (fd : Option Int) : List UnixCall :=
  [UnixCall.msync (match fd with | none => -1 | some v => v)]

/-- An OS call issued by the windows `flush`. -/
inductive WinCall where
  | flushViewOfFile : WinCall
  | flushFileBuffers : WinCall
deriving DecidableEq

/-- `^uintptr(0)`, the invalid Windows handle, on a 64-bit target. -/
def INVALID_HANDLE : Nat := 2 ^ 64 - 1

/-- `p.m.fd.Fd()` as the windows `flush` evaluates it: Go's
`(*os.File).Fd()` returns `^uintptr(0)` when the receiver is nil, so an
anonymous mapper yields the invalid handle. -/
def hFd : Option Nat → Nat
  | none => INVALID_HANDLE
  | some v => v

/-- `Mapping.flush` of mmap_windows.go: `FlushViewOfFile`, and on its
success `FlushFileBuffers` if and only if the mapping was created
writable and the handle is not the invalid handle.  `viewOk` and
`bufOk` are the abstract outcomes of the two OS calls; the second
component is whether flush returns success. -/
def winFlush (wr : Bool) (fd : Option Nat) (viewOk bufOk : Bool) :
    List WinCall × Bool :=
  if viewOk = false then ([WinCall.flushViewOfFile], false)
  else if wr = true ∧ hFd fd ≠ INVALID_HANDLE then
    ([WinCall.flushViewOfFile, WinCall.flushFileBuffers], bufOk)
  else ([WinCall.flushViewOfFile], true)

/-! ## The chunked Reader (mmap.go lines 135-168)

The consumer closure receives a chunk of file bytes; what it decides
with them is abstracted as a function of the chunk's `(size, offset)`
window (`true` = nil error).  The OS `mmap` of each chunk is assumed to
succeed (its failure path returns `(0, err)` before the consumer runs
and is not the subject of a claim).  The model records every map,
consume and unmap event, in order, alongside the `(bytes, ok)` return
value. -/

/-- One event of a `Reader` run: a chunk mapped (size, offset, prot,
flags), consumed, or unmapped (size, offset). -/
inductive Ev where
  | map : Int → Int → Nat → Nat → Ev
  | consume : Int → Int → Ev
  | unmap : Int → Int → Ev
deriving DecidableEq

/-- The loop of `Reader` (mmap.go lines 145-166), over the remaining
size `fsz`, current offset `off` and byte count `z`.  Each iteration
maps `sz = min fsz _MaxMmapSize` bytes at `off` with `PROT_READ` and
`F_READAHEAD`, runs the consumer, and on consumer success unmaps and
advances; on consumer error it returns `(z, err)` at once — without an
unmap event, exactly as the source returns before `p.unmap()`. -/
def readerLoop (fp : Int → Int → Bool) (fsz off z : Int) :
    List Ev × Int × Bool :=
  if h : 0 < fsz then
    let sz := if fsz > _MaxMmapSize then _MaxMmapSize else fsz
    if fp sz off then
      let rest := readerLoop fp (fsz - sz) (off + sz) (z + sz)
      (Ev.map sz off mmap.PROT_READ mmap.F_READAHEAD ::
        Ev.consume sz off :: Ev.unmap sz off :: rest.1, rest.2)
    else
      ([Ev.map sz off mmap.PROT_READ mmap.F_READAHEAD,
        Ev.consume sz off], z, false)
  else ([], z, true)
termination_by fsz.toNat
decreasing_by
  simp only [_MaxMmapSize]
  split <;> omega

/-- `Reader` (mmap.go lines 135-168) for a file whose `Stat` reports
size `fsz`, abstracting the consumer as above. -/
def Reader (fp : Int → Int → Bool) (fsz : Int) : List Ev × Int × Bool :=
  readerLoop fp fsz 0 0

/-- The map events of a trace, as `(size, offset, prot, flags)`. -/
def mapCalls (evs : List Ev) : List (Int × Int × Nat × Nat) :=
  evs.filterMap fun e => match e with
    | Ev.map sz off p f => some (sz, off, p, f)
    | _ => none

/-- The number of unmap events of a trace. -/
def unmapCount (evs : List Ev) : Nat :=
  (evs.filter fun e => match e with
    | Ev.unmap _ _ => true
    | _ => false).length

/-- Whether the `(size, offset)` windows of a chunk list are
consecutive, starting at `start` and ending exactly at `stop`. -/
def isContigTo (start stop : Int) : List (Int × Int × Nat × Nat) → Bool
  | [] => start == stop
  | (sz, off, _, _) :: rest => off == start && isContigTo (start + sz) stop rest

/-- A consumer that succeeds on the chunk at offset 0 and errs on any
later chunk. -/
def stopAfterFirstChunk : Int → Int → Bool := fun _ off => off == 0

/-! ### Helper lemmas -/

theorem int64Wrap_of_bounds (x : Int) (h1 : -(2 ^ 63) ≤ x) (h2 : x < 2 ^ 63) :
    int64Wrap x = x := by
  unfold int64Wrap
  omega

/-! ### Unfolding lemmas for the Reader loop -/

theorem readerLoop_pos (fp : Int → Int → Bool) (fsz off z sz : Int)
    (h : 0 < fsz) (hsz : sz = if fsz > _MaxMmapSize then _MaxMmapSize else fsz) :
    readerLoop fp fsz off z =
      if fp sz off then
        (Ev.map sz off mmap.PROT_READ mmap.F_READAHEAD :: Ev.consume sz off ::
          Ev.unmap sz off :: (readerLoop fp (fsz - sz) (off + sz) (z + sz)).1,
         (readerLoop fp (fsz - sz) (off + sz) (z + sz)).2)
      else
        ([Ev.map sz off mmap.PROT_READ mmap.F_READAHEAD,
          Ev.consume sz off], z, false) := by
  subst hsz
  rw [readerLoop.eq_def]
  simp [h]

theorem readerLoop_end (fp : Int → Int → Bool) (fsz off z : Int)
    (h : ¬ 0 < fsz) : readerLoop fp fsz off z = ([], z, true) := by
  rw [readerLoop.eq_def]
  simp [h]

/-- Master invariant of the Reader loop for a consumer that never
errs: the loop returns `(z + fsz, true)`; its map events form a
consecutive partition of `[off, off + fsz)` into chunks of positive
size at most `_MaxMmapSize`, each mapped with `PROT_READ` and
`F_READAHEAD`; and their number is `ceil(fsz / _MaxMmapSize)`. -/
theorem readerLoop_ok (n : Nat) :
    ∀ (fp : Int → Int → Bool), (∀ s o, fp s o = true) →
    ∀ fsz off z : Int, fsz.toNat = n → 0 ≤ fsz →
    (readerLoop fp fsz off z).2 = (z + fsz, true) ∧
    isContigTo off (off + fsz) (mapCalls (readerLoop fp fsz off z).1) = true ∧
    (∀ c ∈ mapCalls (readerLoop fp fsz off z).1,
      0 < c.1 ∧ c.1 ≤ _MaxMmapSize ∧
      c.2.2.1 = mmap.PROT_READ ∧ c.2.2.2 = mmap.F_READAHEAD) ∧
    (mapCalls (readerLoop fp fsz off z).1).length
      = (fsz.toNat + (_MaxMmapSize.toNat - 1)) / _MaxMmapSize.toNat := by
  induction n using Nat.strong_induction_on with
  | _ n ih =>
    intro fp hfp fsz off z hn h0
    have hMval : _MaxMmapSize = (1099511627776 : Int) := by
      norm_num [_MaxMmapSize]
    by_cases hpos : 0 < fsz
    · rw [readerLoop_pos fp fsz off z _ hpos rfl, hfp, if_pos rfl]
      have hsz1 : 0 < (if fsz > _MaxMmapSize then _MaxMmapSize else fsz) := by
        split <;> omega
      have hsz3 : (if fsz > _MaxMmapSize then _MaxMmapSize else fsz)
          ≤ _MaxMmapSize := by split <;> omega
      set sz := if fsz > _MaxMmapSize then _MaxMmapSize else fsz with hszdef
      have hsz2 : sz ≤ fsz := by rw [hszdef]; split <;> omega
      have IH := ih (fsz - sz).toNat (by omega) fp hfp (fsz - sz)
        (off + sz) (z + sz) rfl (by omega)
      obtain ⟨IH1, IH2, IH3, IH4⟩ := IH
      have e2 : off + sz + (fsz - sz) = off + fsz := by ring
      rw [e2] at IH2
      refine ⟨?_, ?_, ?_, ?_⟩
      · rw [IH1]
        have e1 : z + sz + (fsz - sz) = z + fsz := by ring
        rw [e1]
      · simp only [mapCalls, List.filterMap_cons] at IH2 ⊢
        simp [isContigTo, IH2]
      · intro c hc
        simp only [mapCalls, List.filterMap_cons] at hc
        rcases List.mem_cons.mp hc with hhd | htl
        · subst hhd
          exact ⟨hsz1, hsz3, rfl, rfl⟩
        · exact IH3 c htl
      · have hMn : 0 < _MaxMmapSize.toNat := by rw [hMval]; norm_num
        simp only [mapCalls, List.filterMap_cons, List.length_cons] at IH4 ⊢
        rw [IH4]
        rcases lt_or_le _MaxMmapSize fsz with hbig | hsmall
        · have hszM : sz = _MaxMmapSize := by rw [hszdef, if_pos hbig]
          have hS : (fsz - sz).toNat = fsz.toNat - _MaxMmapSize.toNat := by
            omega
          have key : fsz.toNat + (_MaxMmapSize.toNat - 1)
              = (fsz.toNat - _MaxMmapSize.toNat + (_MaxMmapSize.toNat - 1))
                + _MaxMmapSize.toNat := by
            omega
          rw [hS, key, Nat.add_div_right _ hMn]
        · have hszf : sz = fsz := by
            rw [hszdef, if_neg (by omega)]
          have hS : (fsz - sz).toNat = 0 := by omega
          rw [hS]
          have hz : (0 + (_MaxMmapSize.toNat - 1)) / _MaxMmapSize.toNat = 0 :=
            Nat.div_eq_of_lt (by omega)
          rw [hz]
          have key : fsz.toNat + (_MaxMmapSize.toNat - 1)
              = (fsz.toNat - 1) + _MaxMmapSize.toNat := by omega
          rw [key, Nat.add_div_right _ hMn, Nat.div_eq_of_lt (by omega)]
    · rw [readerLoop_end fp fsz off z hpos]
      have hz : fsz = 0 := by omega
      subst hz
      refine ⟨by norm_num, by simp [mapCalls, isContigTo], ?_, ?_⟩
      · intro c hc
        simp [mapCalls] at hc
      · simp only [mapCalls, List.filterMap_nil, List.length_nil]
        rw [Nat.div_eq_of_lt (by omega)]

/-- Evaluation form of `readerLoop_pos` (the chunk size still as the
source's conditional), convenient for running the loop on concrete
inputs by rewriting. -/
theorem readerLoop_pos_eval (fp : Int → Int → Bool) (fsz off z : Int)
    (h : 0 < fsz) :
    readerLoop fp fsz off z =
      (let sz := if fsz > _MaxMmapSize then _MaxMmapSize else fsz
       if fp sz off then
         (Ev.map sz off mmap.PROT_READ mmap.F_READAHEAD :: Ev.consume sz off ::
           Ev.unmap sz off :: (readerLoop fp (fsz - sz) (off + sz) (z + sz)).1,
          (readerLoop fp (fsz - sz) (off + sz) (z + sz)).2)
       else
         ([Ev.map sz off mmap.PROT_READ mmap.F_READAHEAD,
           Ev.consume sz off], z, false)) :=
  readerLoop_pos fp fsz off z _ h rfl

/-! ## Claims about the Mapper -/

/-- C2 (amended): in anonymous mode `Map` performs no validation at
all — no file checks and also no maximum-size check — and dispatches
straight to anonymous-mapping creation with the requested size and
offset. -/
theorem Map_anon_dispatches_directly (sz off : Int) (prot flags : Nat) :
    MapT Backing.anon sz off prot flags
      = ([OSInvoke.mapAnonCall sz off prot flags],
         MapResult.osMapAnon sz off prot flags) := rfl

/-- C2 counterexample: an anonymous request one byte above
`_MaxMmapSize` is not rejected as too large; it is dispatched to the
anonymous-mapping primitive, so no maximum-size check happens in
anonymous mode. -/
theorem Map_anon_no_max_check_cex :
    Map Backing.anon (_MaxMmapSize + 1) 0 mmap.PROT_READ 0
        = MapResult.osMapAnon (_MaxMmapSize + 1) 0 mmap.PROT_READ 0 ∧
    Map Backing.anon (_MaxMmapSize + 1) 0 mmap.PROT_READ 0
        ≠ MapResult.tooLarge := by
  exact ⟨rfl, by decide⟩

/-- C3 (amended): a non-positive `size` is resolved to the full file
size `fsz` (not to `fsz - off`), so with offset `0` the whole file is
mapped (bounds and maximum size permitting), while for any offset
`0 < off` the resolved request fails the bounds check with the
out-of-bounds error. -/
theorem Map_zero_size_resolves_whole_file (st : FileInfo)
    (hr : st.isRegular = true) (h0 : 0 < st.size)
    (hmax : st.size ≤ _MaxMmapSize) (sz off : Int) (hsz : sz ≤ 0)
    (hoff : 0 ≤ off) (hrange : st.size + off < 2 ^ 63)
    (prot flags : Nat) :
    Map (Backing.file (some st)) sz off prot flags
      = if off = 0 then MapResult.osMmap st.size 0 prot flags
        else MapResult.outOfBounds := by
  have hwrap : int64Add st.size off = st.size + off :=
    int64Wrap_of_bounds _ (by omega) hrange
  have hne : ¬ st.size = 0 := by omega
  simp [Map, MapT, hr, hne, hsz, hwrap]
  split_ifs <;> first | rfl | omega | simp_all

/-- Witness for `Map_zero_size_resolves_whole_file`: a 10-byte regular
file, `size = 0`, `offset = 0`. -/
theorem Map_zero_size_resolves_whole_file_witness :
    (⟨true, 10⟩ : FileInfo).isRegular = true ∧ (0 : Int) < 10 ∧
    (10 : Int) ≤ _MaxMmapSize ∧ (0 : Int) ≤ 0 ∧ (10 : Int) + 0 < 2 ^ 63 ∧
    Map (Backing.file (some ⟨true, 10⟩)) 0 0 mmap.PROT_READ mmap.F_READAHEAD
      = if (0 : Int) = 0
        then MapResult.osMmap (⟨true, 10⟩ : FileInfo).size 0
          mmap.PROT_READ mmap.F_READAHEAD
        else MapResult.outOfBounds :=
  ⟨rfl, by decide, by decide, by decide, by decide,
    Map_zero_size_resolves_whole_file ⟨true, 10⟩ rfl (by decide) (by decide)
      0 0 (by decide) (by decide) (by decide) mmap.PROT_READ mmap.F_READAHEAD⟩

/-- C3 counterexample: a 10-byte regular file, `size = 0`,
`offset = 5`: the claim expects "map the remaining 5 bytes from offset
5" to pass validation, but `Map` resolves the size to the full file
size 10 and fails the bounds check. -/
theorem Map_zero_size_offset_cex :
    Map (Backing.file (some ⟨true, 10⟩)) 0 5 mmap.PROT_READ mmap.F_READAHEAD
        = MapResult.outOfBounds ∧
    Map (Backing.file (some ⟨true, 10⟩)) 0 5 mmap.PROT_READ mmap.F_READAHEAD
        ≠ MapResult.osMmap 5 5 mmap.PROT_READ mmap.F_READAHEAD := by
  exact ⟨by decide, by decide⟩

/-- C5: all validation of a file-backed request completes before the
OS mapping primitive is invoked.  Concretely, `size = fileSize + 1` at
`offset = 0` fails with the out-of-bounds error and the trace of OS
mapping primitives is empty; and in general any erroring `Map` run has
an empty OS-invocation trace. -/
theorem Map_validation_before_os (st : FileInfo) (hr : st.isRegular = true)
    (h0 : 0 < st.size) (prot flags : Nat) :
    MapT (Backing.file (some st)) (st.size + 1) 0 prot flags
      = ([], MapResult.outOfBounds) ∧
    ∀ (b : Backing) (sz off : Int) (p f : Nat),
      isErr (MapT b sz off p f).2 = true → (MapT b sz off p f).1 = [] := by
  constructor
  · have hne : ¬ st.size = 0 := by omega
    simp [MapT, hr, hne]
    try split_ifs <;> first | rfl | omega
  · intro b sz off p f h
    cases b with
    | anon => simp [MapT, isErr] at h
    | file ost =>
      cases ost with
      | none => rfl
      | some st2 =>
        simp only [MapT] at h ⊢
        split_ifs at h ⊢ <;> simp_all [isErr]

/-- Witness for `Map_validation_before_os`: a 10-byte regular file. -/
theorem Map_validation_before_os_witness :
    (⟨true, 10⟩ : FileInfo).isRegular = true ∧ (0 : Int) < 10 ∧
    (MapT (Backing.file (some ⟨true, 10⟩)) ((10 : Int) + 1) 0
        mmap.PROT_READ 0 = ([], MapResult.outOfBounds) ∧
     ∀ (b : Backing) (sz off : Int) (p f : Nat),
       isErr (MapT b sz off p f).2 = true → (MapT b sz off p f).1 = []) :=
  ⟨rfl, by decide,
    Map_validation_before_os ⟨true, 10⟩ rfl (by decide) mmap.PROT_READ 0⟩

/-- C9 (amended): the bounds check compares the wrapping 64-bit sum of
size and offset against the file size: whenever `int64Add sz off`
exceeds the file size (and `sz > 0`, so no resolution occurs), `Map`
fails with the out-of-bounds error.  An offset large enough to wrap
the sum negative passes this check (see the counterexample). -/
theorem Map_wrapped_bounds_check (st : FileInfo) (hr : st.isRegular = true)
    (h0 : 0 < st.size) (sz off : Int) (hsz : 0 < sz) (prot flags : Nat)
    (hgt : int64Add sz off > st.size) :
    Map (Backing.file (some st)) sz off prot flags
      = MapResult.outOfBounds := by
  have hne : ¬ st.size = 0 := by omega
  have hnr : ¬ sz ≤ 0 := by omega
  have hb : sz > st.size ∨ int64Add sz off > st.size := Or.inr hgt
  simp [Map, MapT, hr, hne, hnr, hb]

/-- Witness for `Map_wrapped_bounds_check`: a 10-byte regular file,
`size = 5`, `offset = 6` (no wrap, exact sum 11 > 10). -/
theorem Map_wrapped_bounds_check_witness :
    (⟨true, 10⟩ : FileInfo).isRegular = true ∧ (0 : Int) < 10 ∧
    (0 : Int) < 5 ∧ int64Add 5 6 > (10 : Int) ∧
    Map (Backing.file (some ⟨true, 10⟩)) 5 6 mmap.PROT_READ 0
      = MapResult.outOfBounds :=
  ⟨rfl, by decide, by decide, by decide,
    Map_wrapped_bounds_check ⟨true, 10⟩ rfl (by decide) 5 6 (by decide)
      mmap.PROT_READ 0 (by decide)⟩

/-- C9 counterexample: a 10-byte regular file, `size = 10`,
`offset = 2^63 - 5`.  In exact arithmetic `size + offset > 10`, yet
the int64 sum wraps negative, the bounds validation passes, and the OS
primitive is invoked. -/
theorem Map_bounds_wraparound_cex :
    MapT (Backing.file (some ⟨true, 10⟩)) 10 (2 ^ 63 - 5) mmap.PROT_READ 0
        = ([OSInvoke.mmapCall 10 (2 ^ 63 - 5) mmap.PROT_READ 0],
           MapResult.osMmap 10 (2 ^ 63 - 5) mmap.PROT_READ 0) ∧
    (10 : Int) + (2 ^ 63 - 5) > 10 := by
  exact ⟨by decide, by decide⟩

/-- C10 (amended): a negative offset passes validation whenever
`0 < size ≤ fileSize` and additionally `size ≤ _MaxMmapSize`; the OS
primitive is then invoked with the negative offset — the library
itself never rejects an offset for being negative. -/
theorem Map_negative_offset_accepted (st : FileInfo)
    (hr : st.isRegular = true) (h0 : 0 < st.size) (sz off : Int)
    (hsz : 0 < sz) (hszf : sz ≤ st.size) (hmax : sz ≤ _MaxMmapSize)
    (hoff : off < 0) (hoffr : -(2 ^ 63) ≤ off) (hszr : sz < 2 ^ 63)
    (prot flags : Nat) :
    MapT (Backing.file (some st)) sz off prot flags
      = ([OSInvoke.mmapCall sz off prot flags],
         MapResult.osMmap sz off prot flags) := by
  have hwrap : int64Add sz off = sz + off :=
    int64Wrap_of_bounds _ (by omega) (by omega)
  have hne : ¬ st.size = 0 := by omega
  have hnr : ¬ sz ≤ 0 := by omega
  have hnb : ¬ (sz > st.size ∨ int64Add sz off > st.size) := by
    rw [hwrap]
    omega
  have hnl : ¬ sz > _MaxMmapSize := by omega
  simp [MapT, hr, hne, hnr, hnb, hnl]

/-- Witness for `Map_negative_offset_accepted`: a 10-byte regular
file, `size = 5`, `offset = -3`. -/
theorem Map_negative_offset_accepted_witness :
    (⟨true, 10⟩ : FileInfo).isRegular = true ∧ (0 : Int) < 10 ∧
    (0 : Int) < 5 ∧ (5 : Int) ≤ 10 ∧ (5 : Int) ≤ _MaxMmapSize ∧
    (-3 : Int) < 0 ∧ -(2 ^ 63) ≤ (-3 : Int) ∧ (5 : Int) < 2 ^ 63 ∧
    MapT (Backing.file (some ⟨true, 10⟩)) 5 (-3) mmap.PROT_READ 0
      = ([OSInvoke.mmapCall 5 (-3) mmap.PROT_READ 0],
         MapResult.osMmap 5 (-3) mmap.PROT_READ 0) :=
  ⟨rfl, by decide, by decide, by decide, by decide, by decide, by decide,
    by decide,
    Map_negative_offset_accepted ⟨true, 10⟩ rfl (by decide) 5 (-3)
      (by decide) (by decide) (by decide) (by decide) (by decide) (by decide)
      mmap.PROT_READ 0⟩

/-- C10 counterexample: a regular file of size `_MaxMmapSize + 2`,
`size = _MaxMmapSize + 1`, `offset = -1`: the request satisfies the
claim's hypotheses (`off < 0`, `0 < size ≤ fileSize`, so
`size + off ≤ fileSize`), yet validation rejects it as too large
instead of invoking the OS primitive. -/
theorem Map_negative_offset_too_large_cex :
    MapT (Backing.file (some ⟨true, _MaxMmapSize + 2⟩)) (_MaxMmapSize + 1)
        (-1) mmap.PROT_READ 0 = ([], MapResult.tooLarge) ∧
    (0 : Int) < _MaxMmapSize + 1 ∧ _MaxMmapSize + 1 ≤ _MaxMmapSize + 2 := by
  exact ⟨by decide, by decide, by decide⟩

/-! ## Claims about the chunked Reader -/

/-- C4: for a file of size `S > 0` and a consumer that never errs, the
Reader returns `(S, nil)` where `S` is the size observed once at the
start; its chunk windows are consecutive and non-overlapping, exactly
partitioning `[0, S)`; each chunk has positive size at most
`_MaxMmapSize` and is mapped with `PROT_READ` and `F_READAHEAD`; and
the number of chunks is `ceil(S / _MaxMmapSize)`. -/
theorem Reader_success_chunks (fp : Int → Int → Bool)
    (hfp : ∀ s o, fp s o = true) (fsz : Int) (h0 : 0 < fsz) :
    (Reader fp fsz).2 = (fsz, true) ∧
    isContigTo 0 fsz (mapCalls (Reader fp fsz).1) = true ∧
    (∀ c ∈ mapCalls (Reader fp fsz).1,
      0 < c.1 ∧ c.1 ≤ _MaxMmapSize ∧
      c.2.2.1 = mmap.PROT_READ ∧ c.2.2.2 = mmap.F_READAHEAD) ∧
    (mapCalls (Reader fp fsz).1).length
      = (fsz.toNat + (_MaxMmapSize.toNat - 1)) / _MaxMmapSize.toNat := by
  have h := readerLoop_ok fsz.toNat fp hfp fsz 0 0 rfl (le_of_lt h0)
  simpa [Reader] using h

/-- Witness for `Reader_success_chunks`: a 5-byte file with the
always-succeeding consumer. -/
theorem Reader_success_chunks_witness :
    (0 : Int) < 5 ∧
    ((Reader (fun _ _ => true) 5).2 = (5, true) ∧
     isContigTo 0 5 (mapCalls (Reader (fun _ _ => true) 5).1) = true ∧
     (∀ c ∈ mapCalls (Reader (fun _ _ => true) 5).1,
       0 < c.1 ∧ c.1 ≤ _MaxMmapSize ∧
       c.2.2.1 = mmap.PROT_READ ∧ c.2.2.2 = mmap.F_READAHEAD) ∧
     (mapCalls (Reader (fun _ _ => true) 5).1).length
       = ((5 : Int).toNat + (_MaxMmapSize.toNat - 1)) / _MaxMmapSize.toNat) :=
  ⟨by decide,
    Reader_success_chunks (fun _ _ => true) (fun _ _ => rfl) 5 (by decide)⟩

/-- C1: on a file of `2^40 + 5` bytes (two chunks) with a consumer
that errs on the second chunk, the Reader stops and returns the
`2^40` bytes processed before the failing chunk together with the
error — but its trace holds two map events and only one unmap event:
the mapping of the failing chunk is never unmapped before `Reader`
returns, contradicting the documented pairing invariant. -/
theorem Reader_consumer_error_leaks_mapping :
    (Reader stopAfterFirstChunk (2 ^ 40 + 5)).2 = (2 ^ 40, false) ∧
    (mapCalls (Reader stopAfterFirstChunk (2 ^ 40 + 5)).1).length = 2 ∧
    unmapCount (Reader stopAfterFirstChunk (2 ^ 40 + 5)).1 = 1 := by
  refine ⟨?_, ?_⟩
  · norm_num [Reader, readerLoop_pos_eval, readerLoop_end,
      stopAfterFirstChunk, _MaxMmapSize]
  · norm_num [Reader, readerLoop_pos_eval, readerLoop_end,
      stopAfterFirstChunk, _MaxMmapSize]
    decide

/-! ## Claims about flush -/

/-- C6 (amended): only the windows `flush` performs the two-step
protocol — for a writable file-backed mapping it syncs the view
(`FlushViewOfFile`) and then, only on that step's success, forces the
file's buffers to stable storage (`FlushFileBuffers`), returning an
error if either step fails; the unix `flush` issues a single `msync`
call (with the file descriptor value in the flags argument) and never
performs a separate file-buffer step. -/
theorem flush_two_steps_windows_one_step_unix (h : Nat)
    (hh : h ≠ INVALID_HANDLE) (viewOk bufOk : Bool) (fdv : Int) :
    (winFlush true (some h) viewOk bufOk).1
      = (if viewOk then [WinCall.flushViewOfFile, WinCall.flushFileBuffers]
         else [WinCall.flushViewOfFile]) ∧
    (winFlush true (some h) viewOk bufOk).2 = (viewOk && bufOk) ∧
    unixFlush (some fdv) = [UnixCall.msync fdv] := by
  cases viewOk <;> cases bufOk <;> simp [winFlush, unixFlush, hFd, hh]

/-- Witness for `flush_two_steps_windows_one_step_unix`: handle 3,
both OS calls succeeding, unix descriptor 7. -/
theorem flush_two_steps_windows_one_step_unix_witness :
    (3 : Nat) ≠ INVALID_HANDLE ∧
    ((winFlush true (some 3) true true).1
       = (if true then [WinCall.flushViewOfFile, WinCall.flushFileBuffers]
          else [WinCall.flushViewOfFile]) ∧
     (winFlush true (some 3) true true).2 = (true && true) ∧
     unixFlush (some 7) = [UnixCall.msync 7]) :=
  ⟨by decide, flush_two_steps_windows_one_step_unix 3 (by decide) true true 7⟩

/-- C6 counterexample: on unix, `flush` of a file-backed writable
mapping (descriptor 3) issues exactly one OS call — `msync` with the
descriptor in the flags position — not the claimed two ordered steps;
there is no file-buffer-persisting second call. -/
theorem flush_unix_one_step_cex :
    unixFlush (some 3) = [UnixCall.msync 3] ∧
    (unixFlush (some 3)).length ≠ 2 := by
  exact ⟨rfl, by decide⟩

/-- C7: flushing an anonymous mapping.  On windows the model skips the
`FlushFileBuffers` step (the nil file's handle evaluates to the
invalid handle) and succeeds whenever the view flush does.  On unix
the code passes the sentinel descriptor `-1` as the flags argument of
`msync` — an invalid msync flags value, so the one OS call it makes is
malformed for every anonymous mapping. -/
theorem flush_anon_passes_fd_as_flags (wr viewOk bufOk : Bool) :
    unixFlush none = [UnixCall.msync (-1)] ∧
    winFlush wr none viewOk bufOk = ([WinCall.flushViewOfFile], viewOk) := by
  cases viewOk <;> simp [unixFlush, winFlush, hFd, INVALID_HANDLE]

/-! ## Claims about the flag translator -/

/-- C8: both platform translators are total functions; the translated
protection always includes READ (unix `mprot` keeps `PROT_READ`,
windows `macc` keeps `FILE_MAP_READ`); and the sharing mode is private
(unix `MAP_PRIVATE`, windows `FILE_MAP_COPY`) exactly when WRITE
protection and the COW flag are both requested, shared (unix
`MAP_SHARED`) in every other case. -/
theorem convert_read_kept_cow_iff_private (prot flags : Nat) :
    (unixConvert prot flags).1 &&& unix.PROT_READ = unix.PROT_READ ∧
    (((unixConvert prot flags).2 &&& unix.MAP_PRIVATE ≠ 0) ↔
      (prot &&& mmap.PROT_WRITE ≠ 0 ∧ flags &&& mmap.F_COW ≠ 0)) ∧
    (((unixConvert prot flags).2 &&& unix.MAP_SHARED ≠ 0) ↔
      ¬ (prot &&& mmap.PROT_WRITE ≠ 0 ∧ flags &&& mmap.F_COW ≠ 0)) ∧
    (winConvert prot flags).2 &&& windows.FILE_MAP_READ
      = windows.FILE_MAP_READ ∧
    (((winConvert prot flags).2 &&& windows.FILE_MAP_COPY ≠ 0) ↔
      (prot &&& mmap.PROT_WRITE ≠ 0 ∧ flags &&& mmap.F_COW ≠ 0)) := by
  by_cases hw : prot &&& mmap.PROT_WRITE = 0 <;>
    by_cases hc : flags &&& mmap.F_COW = 0 <;>
      by_cases he : prot &&& mmap.PROT_EXEC = 0 <;>
        by_cases hh : flags &&& mmap.F_HUGETLB = 0 <;>
          by_cases hrf : flags &&& mmap.F_READAHEAD = 0 <;>
            simp [unixConvert, winConvert, hw, hc, he, hh, hrf] <;> decide
